import Mathlib

/-!
Verification of the node-spellchecker native addon (src/main.cc) against its
natural-language specification.  The addon is a thin asynchronous bridge: a
Spellchecker object wraps an opaque engine, synchronous methods call the engine
inline, and the two async methods copy their input, schedule a worker, and
deliver the result through a completion callback.

The embedding keeps strings at the granularity the claims need: a JS string is
its sequence of 16-bit code units, each a Nat below 2^16, and the UTF-8
transcode performed by the host runtime is modelled abstractly (no claim
depends on the byte encoding, only on which source value reaches the engine).
-/

namespace NodeSpellchecker

/-- A JS value as seen at the native-addon boundary: a string (its UTF-16 code
units), a function (identified by an id), a node Buffer (an id and its bytes),
a number, or undefined.  Undefined is what reading a missing argument from the
call info yields. -/
inductive JSValue where
  | vstr (codeUnits : List Nat)
  | vfun (id : Nat)
  | vbuf (id : Nat) (bytes : List Nat)
  | vnum (n : Int)
  | vundef
deriving DecidableEq, Repr

/-- Model of the String::Utf8Value coercion applied by the addon to incoming
arguments.  V8 coerces any value to a string; for an actual string we keep its
code units (the claims depend only on which source string reaches the engine,
not on the byte-level encoding), and the coercion of non-string values is
host-runtime behaviour modelled by arbitrary distinct byte lists. -/
def utf8Value : JSValue → List Nat
  | JSValue.vstr us => us
  | JSValue.vfun k => [102, k]
  | JSValue.vbuf k _ => [98, k]
  | JSValue.vnum n => [110, n.natAbs]
  | JSValue.vundef => [117, 110, 100, 101, 102, 105, 110, 101, 100]

/-- A misspelled range as produced by the engine: a half-open interval of
code-unit offsets.  The fields are size_t in the engine interface, modelled as
Nat. -/
structure MisspelledRange where
  start : Nat
  «end» : Nat
deriving DecidableEq, Repr

/-- An unexpected engine fault (a C++ exception escaping an engine call). -/
structure EngineFault where
  msg : String
deriving DecidableEq, Repr

/-- The capability set of the opaque spellchecking engine
(SpellcheckerImplementation).  The two methods invoked from background workers
may fault; Except.error models a C++ exception propagating out of the call. -/
structure Engine where
  checkSpelling : List Nat → Except EngineFault (List MisspelledRange)
  isMisspelled : List Nat → Bool
  getCorrectionsForMisspelling : List Nat → Except EngineFault (List (List Nat))
  setDictionary : List Nat → Bool
  setDictionaryToContents : List Nat → Bool
  getAvailableDictionaries : List Nat → List (List Nat)

/-- The payload handed to the completion callback: either the array of
misspelled-range objects or the array of correction strings. -/
inductive Payload where
  | ranges (rs : List MisspelledRange)
  | strings (ss : List (List Nat))
deriving DecidableEq, Repr

/-- One invocation of the completion callback: argv[0] is the error slot
(Null on success) and argv[1] the payload. -/
structure CallbackCall where
  error : Option String
  payload : Option Payload
deriving DecidableEq, Repr

/-- Truncation of a size_t to uint32_t, as performed by HandleOKCallback when
it reads iter-\x3estart and iter-\x3eend into uint32_t locals. -/
def uint32 (n : Nat) : Nat := n % 4294967296

/-- CheckSpellingWorker.HandleOKCallback: builds, in engine order, one JS
object with start and end fields (read through uint32_t locals) per range, and
invokes the callback once with argv = [Null, rangesArray]. -/
def checkSpellingHandleOK (misspelledRanges : List MisspelledRange) : CallbackCall :=
  { error := none
    payload := some (Payload.ranges (misspelledRanges.map fun r =>
      { start := uint32 r.start, «end» := uint32 r.«end» })) }

/-- GetCorrectionsForMisspellingWorker.HandleOKCallback: builds, in engine
order, one JS string per correction (from its data and size) and invokes the
callback once with argv = [Null, result]. -/
def getCorrectionsHandleOK (corrections : List (List Nat)) : CallbackCall :=
  { error := none, payload := some (Payload.strings corrections) }

/-- Modelled from the spec: the Nan AsyncWorker completion machinery is not
under src/.  Per the Completion Dispatcher section, once Execute has returned,
exactly one of HandleOKCallback or HandleErrorCallback runs on the consumer
thread, chosen by whether an error message was recorded during Execute. -/
def dispatchOnce (errorMessage : Option String) (onOK : CallbackCall)
    (onError : String → CallbackCall) : List CallbackCall :=
  match errorMessage with
  | none => [onOK]
  | some m => [onError m]

/-- Modelled from the spec: the default error path of the completion machinery
delivers a non-null error and no payload. -/
def handleErrorCallback (m : String) : CallbackCall :=
  { error := some m, payload := none }

/-- CheckSpellingWorker.Execute: a single direct engine call on the owned text
vector, passing its data pointer and its full size.  There is no handler
around the call and no code path records an error message, so a fault in the
engine call propagates out of Execute. -/
def checkSpellingWorkerExecute (impl : Engine) (text : List Nat) :
    Except EngineFault (List MisspelledRange) :=
  impl.checkSpelling text

/-- GetCorrectionsForMisspellingWorker.Execute: a single direct engine call on
the owned word, with no handler and no error-message recording. -/
def getCorrectionsWorkerExecute (impl : Engine) (word : List Nat) :
    Except EngineFault (List (List Nat)) :=
  impl.getCorrectionsForMisspelling word

/-- A whole CheckSpellingWorker task run: Execute on the background thread and
then, when Execute returns, the completion dispatch.  The worker never records
an error message, so a returning Execute always reaches HandleOKCallback; a
faulting Execute never reaches the dispatcher at all. -/
def runCheckSpellingWorker (impl : Engine) (text : List Nat) :
    Except EngineFault (List CallbackCall) :=
  match checkSpellingWorkerExecute impl text with
  | Except.error f => Except.error f
  | Except.ok rs => Except.ok (dispatchOnce none (checkSpellingHandleOK rs) handleErrorCallback)

/-- A whole GetCorrectionsForMisspellingWorker task run, symmetric to the
check-spelling worker. -/
def runGetCorrectionsWorker (impl : Engine) (word : List Nat) :
    Except EngineFault (List CallbackCall) :=
  match getCorrectionsWorkerExecute impl word with
  | Except.error f => Except.error f
  | Except.ok cs => Except.ok (dispatchOnce none (getCorrectionsHandleOK cs) handleErrorCallback)

/-- The task queued by CheckSpellingAsync: the callback taken (unchecked) from
argument 1 and the worker-owned copy of the text vector. -/
structure ScheduledCheckTask where
  callback : JSValue
  text : List Nat
deriving DecidableEq, Repr

/-- Outcome of a CheckSpellingAsync call at the boundary: a synchronously
thrown error, if any, and the scheduled task, if any. -/
structure CheckAsyncResult where
  thrown : Option String
  task : Option ScheduledCheckTask
deriving DecidableEq, Repr

/-- Spellchecker.CheckSpellingAsync: throws Bad argument when fewer than one
argument is supplied or argument 0 is not a string; returns without scheduling
anything when the string is empty; otherwise allocates a vector of length + 1
code units, writes the string plus its NUL terminator into it, takes argument
1 as the callback with an unchecked cast, and queues a worker. -/
def checkSpellingAsync (args : List JSValue) : CheckAsyncResult :=
  if args.length < 1 then { thrown := some "Bad argument", task := none }
  else
    match args.getD 0 JSValue.vundef with
    | JSValue.vstr codeUnits =>
        if codeUnits.length = 0 then { thrown := none, task := none }
        else
          { thrown := none
            task := some { callback := args.getD 1 JSValue.vundef
                           text := codeUnits ++ [0] } }
    | _ => { thrown := some "Bad argument", task := none }

/-- All completion-callback invocations a CheckSpellingAsync call ever causes:
the method body itself never invokes the callback, so invocations come only
from the dispatch of a scheduled worker, and a faulting worker run never
reaches the dispatcher. -/
def checkAsyncSinkCalls (impl : Engine) (r : CheckAsyncResult) : List CallbackCall :=
  match r.task with
  | none => []
  | some t =>
      match runCheckSpellingWorker impl t.text with
      | Except.error _ => []
      | Except.ok calls => calls

/-- The task queued by GetCorrectionsForMisspellingAsync. -/
structure ScheduledCorrectionsTask where
  callback : JSValue
  word : List Nat
deriving DecidableEq, Repr

/-- Outcome of a GetCorrectionsForMisspellingAsync call at the boundary. -/
structure CorrectionsAsyncResult where
  thrown : Option String
  task : Option ScheduledCorrectionsTask
deriving DecidableEq, Repr

/-- Spellchecker.GetCorrectionsForMisspellingAsync: throws Bad argument when
fewer than one argument is supplied; otherwise coerces argument 0 to a string,
takes argument 1 as the callback with an unchecked cast, and unconditionally
queues a worker (there is no fast path of any kind). -/
def getCorrectionsForMisspellingAsync (args : List JSValue) : CorrectionsAsyncResult :=
  if args.length < 1 then { thrown := some "Bad argument", task := none }
  else
    { thrown := none
      task := some { callback := args.getD 1 JSValue.vundef
                     word := utf8Value (args.getD 0 JSValue.vundef) } }

/-- Outcome of a SetDictionary call: a synchronously thrown error, if any, the
state of the persistent dictData slot after the call, and the returned Bool. -/
structure SetDictionaryResult where
  thrown : Option String
  dictData : Option JSValue
  returned : Option Bool
deriving Repr

/-- Spellchecker.SetDictionary: throws Bad argument on fewer than one
argument; when a second argument is supplied it must be a Buffer (else a
synchronous throw) and the persistent dictData slot is Reset to it, pinning
it; then the engine is called with the buffer contents, or with the coerced
language name when no second argument was supplied. -/
def setDictionary (impl : Engine) (dictData : Option JSValue) (args : List JSValue) :
    SetDictionaryResult :=
  if args.length < 1 then
    { thrown := some "Bad argument", dictData := dictData, returned := none }
  else if 1 < args.length then
    match args.getD 1 JSValue.vundef with
    | JSValue.vbuf k bytes =>
        { thrown := none
          dictData := some (JSValue.vbuf k bytes)
          returned := some (impl.setDictionaryToContents bytes) }
    | _ =>
        { thrown := some "SetDictionary 2nd argument must be a Buffer"
          dictData := dictData
          returned := none }
  else
    { thrown := none
      dictData := dictData
      returned := some (impl.setDictionary (utf8Value (args.getD 0 JSValue.vundef))) }

/-- Spellchecker.GetAvailableDictionaries, the path computation: the source
initialises a local path to "." and, when an argument is supplied, assigns the
coerced argument to a SECOND local also named path, declared inside the if
block; that inner local is destroyed at the end of the block and the value the
engine receives is still the outer ".". -/
def getAvailableDictionariesEnginePath (args : List JSValue) : List Nat :=
  let path : List Nat := [46]
  if 0 < args.length then
    let _pathInner : List Nat := utf8Value (args.getD 0 JSValue.vundef)
    path
  else path

/-- Spellchecker.GetAvailableDictionaries: calls the engine with the computed
path and returns the resulting list of dictionary names in order. -/
def getAvailableDictionaries (impl : Engine) (args : List JSValue) : List (List Nat) :=
  impl.getAvailableDictionaries (getAvailableDictionariesEnginePath args)

/-- Follows the words of the spec, for comparison with the source: the
enumeration path should be the supplied argument when one is present and "."
otherwise. -/
def getAvailableDictionariesPathSpec (args : List JSValue) : List Nat :=
  if 0 < args.length then utf8Value (args.getD 0 JSValue.vundef) else [46]

/-- One method call on a Spellchecker object, for reasoning about the
evolution of its state over a whole lifetime. -/
inductive ControllerCall where
  | setDict (args : List JSValue)
  | checkAsync (args : List JSValue)
  | corrAsync (args : List JSValue)
  | isMisspelledCall (args : List JSValue)
  | addCall (args : List JSValue)
  | removeCall (args : List JSValue)
  | getAvailable (args : List JSValue)
deriving DecidableEq, Repr

/-- How one method call transforms the persistent dictData slot: SetDictionary
is the only method of the class whose body touches dictData; every other
method leaves it alone. -/
def controllerStep (impl : Engine) (d : Option JSValue) : ControllerCall → Option JSValue
  | ControllerCall.setDict args => (setDictionary impl d args).dictData
  | _ => d

/-- The dictData slot after a whole trace of method calls on one Spellchecker,
starting from the empty persistent handle the constructor leaves. -/
def dictDataAfter (impl : Engine) (trace : List ControllerCall) : Option JSValue :=
  trace.foldl (controllerStep impl) none

/-- Whether a call is a SetDictionary call that supplies a dictionary-contents
Buffer as its second argument (the only kind of call that rewrites the pinned
slot). -/
def suppliesContents : ControllerCall → Bool
  | ControllerCall.setDict args =>
      decide (1 < args.length) &&
        (match args.getD 1 JSValue.vundef with
         | JSValue.vbuf _ _ => true
         | _ => false)
  | _ => false

/-- Whether a completion-callback invocation carries exactly one of a success
payload with a null error, or a non-null error with no payload. -/
def exclusiveDelivery (c : CallbackCall) : Bool :=
  (c.error.isNone && c.payload.isSome) || (c.error.isSome && c.payload.isNone)

/-- A concrete engine with trivial behaviour, used to evaluate the model at
concrete inputs. -/
def trivialEngine : Engine :=
  { checkSpelling := fun _ => Except.ok []
    isMisspelled := fun _ => false
    getCorrectionsForMisspelling := fun _ => Except.ok []
    setDictionary := fun _ => true
    setDictionaryToContents := fun _ => true
    getAvailableDictionaries := fun _ => [] }

/-- A concrete engine whose background-thread capabilities fault, used to
evaluate the worker pipeline on an engine fault. -/
def faultingEngine : Engine :=
  { trivialEngine with
    checkSpelling := fun _ => Except.error { msg := "engine fault" }
    getCorrectionsForMisspelling := fun _ => Except.error { msg := "engine fault" } }

/-- A call that does not supply a contents Buffer leaves the dictData slot
unchanged. -/
theorem controllerStep_of_not_suppliesContents (impl : Engine) (d : Option JSValue)
    (c : ControllerCall) (h : suppliesContents c = false) :
    controllerStep impl d c = d := by
  cases c with
  | setDict args =>
      by_cases h1 : args.length < 1
      · simp [controllerStep, setDictionary, h1]
      · by_cases h2 : 1 < args.length
        · have h3 : (match args.getD 1 JSValue.vundef with
              | JSValue.vbuf _ _ => true
              | _ => false) = false := by
            simpa [suppliesContents, h2] using h
          simp only [controllerStep, setDictionary, if_neg h1, if_pos h2]
          cases hv : args.getD 1 JSValue.vundef with
          | vbuf k bytes => rw [hv] at h3; simp at h3
          | vstr us => rfl
          | vfun k => rfl
          | vnum n => rfl
          | vundef => rfl
        · simp [controllerStep, setDictionary, h1, h2]
  | checkAsync args => rfl
  | corrAsync args => rfl
  | isMisspelledCall args => rfl
  | addCall args => rfl
  | removeCall args => rfl
  | getAvailable args => rfl

/-- A run of calls none of which supplies a contents Buffer leaves the dictData
slot unchanged. -/
theorem foldl_controllerStep_of_none (impl : Engine) (l : List ControllerCall)
    (d : Option JSValue) (h : ∀ c ∈ l, suppliesContents c = false) :
    l.foldl (controllerStep impl) d = d := by
  induction l generalizing d with
  | nil => rfl
  | cons a t ih =>
      rw [List.foldl_cons,
        controllerStep_of_not_suppliesContents impl d a (h a (List.mem_cons_self a t))]
      exact ih d (fun c hc => h c (List.mem_cons_of_mem a hc))

/-- A SetDictionary call with a contents Buffer rewrites the dictData slot to
that Buffer, whatever was pinned before. -/
theorem controllerStep_setDict_contents (impl : Engine) (d : Option JSValue)
    (lang : JSValue) (k : Nat) (bytes : List Nat) :
    controllerStep impl d (ControllerCall.setDict [lang, JSValue.vbuf k bytes]) =
      some (JSValue.vbuf k bytes) := rfl

/-- After any trace followed by a contents-supplying SetDictionary call, the
pinned buffer is the one from that final call. -/
theorem dictDataAfter_append_contents (impl : Engine) (t : List ControllerCall)
    (lang : JSValue) (k : Nat) (bytes : List Nat) :
    dictDataAfter impl (t ++ [ControllerCall.setDict [lang, JSValue.vbuf k bytes]]) =
      some (JSValue.vbuf k bytes) := by
  unfold dictDataAfter
  rw [List.foldl_append, List.foldl_cons, List.foldl_nil, controllerStep_setDict_contents]

/-- The uint32 truncation in HandleOKCallback is the identity on ranges whose
offsets fit in 32 bits. -/
theorem map_uint32_range_id (rs : List MisspelledRange)
    (h : ∀ r ∈ rs, r.start < 4294967296 ∧ r.«end» < 4294967296) :
    (rs.map fun r =>
      ({ start := uint32 r.start, «end» := uint32 r.«end» } : MisspelledRange)) = rs := by
  induction rs with
  | nil => rfl
  | cons a t ih =>
      have ha := h a (List.mem_cons_self a t)
      have ht : ∀ r ∈ t, r.start < 4294967296 ∧ r.«end» < 4294967296 :=
        fun c hc => h c (List.mem_cons_of_mem a hc)
      simp only [List.map_cons, ih ht]
      congr 1
      cases a with
      | mk s e =>
          simp only [uint32] at ha ⊢
          rw [Nat.mod_eq_of_lt ha.1, Nat.mod_eq_of_lt ha.2]

/-- Claim C1 (counterexample): a checkSpellingAsync call on the empty string
with a callback supplied schedules no task, but also never invokes the
completion sink at all — in particular not with an empty ordered sequence of
ranges, as the claim states. -/
theorem checkSpellingAsync_empty_never_invokes_sink :
    (checkSpellingAsync [JSValue.vstr [], JSValue.vfun 0]).task = none ∧
    checkAsyncSinkCalls trivialEngine (checkSpellingAsync [JSValue.vstr [], JSValue.vfun 0]) = [] ∧
    checkAsyncSinkCalls trivialEngine (checkSpellingAsync [JSValue.vstr [], JSValue.vfun 0]) ≠
      [{ error := none, payload := some (Payload.ranges []) }] := by
  refine ⟨rfl, rfl, ?_⟩
  decide

/-- Claim C1 (amended): for every call to checkSpellingAsync whose first
argument is the empty string, the call returns without throwing, schedules no
background task, and never invokes the completion sink (the method body takes
the early return before the callback is even read). -/
theorem checkSpellingAsync_empty_fast_path (impl : Engine) (args : List JSValue)
    (h0 : 1 ≤ args.length) (h1 : args.getD 0 JSValue.vundef = JSValue.vstr []) :
    (checkSpellingAsync args).thrown = none ∧
    (checkSpellingAsync args).task = none ∧
    checkAsyncSinkCalls impl (checkSpellingAsync args) = [] := by
  have hn : ¬ args.length < 1 := by omega
  unfold checkSpellingAsync checkAsyncSinkCalls
  rw [if_neg hn, h1]
  exact ⟨rfl, rfl, rfl⟩

/-- Closed instance of the C1 fast-path theorem at the one-argument call with
the empty string. -/
theorem checkSpellingAsync_empty_fast_path_witness :
    (checkSpellingAsync [JSValue.vstr []]).thrown = none ∧
    (checkSpellingAsync [JSValue.vstr []]).task = none ∧
    checkAsyncSinkCalls trivialEngine (checkSpellingAsync [JSValue.vstr []]) = [] :=
  checkSpellingAsync_empty_fast_path trivialEngine [JSValue.vstr []] (by decide) (by decide)

/-- Claim C2: at the concrete call getAvailableDictionaries("/tmp") the path
handed to the engine is still "." — the supplied argument is assigned to a
shadowed inner local and dropped — while the spec-mandated path is "/tmp". -/
theorem getAvailableDictionaries_drops_supplied_path :
    getAvailableDictionariesEnginePath [JSValue.vstr [47, 116, 109, 112]] = [46] ∧
    getAvailableDictionariesPathSpec [JSValue.vstr [47, 116, 109, 112]] =
      [47, 116, 109, 112] ∧
    getAvailableDictionariesEnginePath [JSValue.vstr [47, 116, 109, 112]] ≠
      getAvailableDictionariesPathSpec [JSValue.vstr [47, 116, 109, 112]] := by
  decide

/-- Claim C3: calling either async method with one argument and no completion
callback does not fail synchronously — the arity check only requires one
argument — and a background task is scheduled whose callback slot holds the
undefined value read past the end of the argument list. -/
theorem async_missing_callback_still_schedules :
    (checkSpellingAsync [JSValue.vstr [104, 101, 108, 108, 111]]).thrown = none ∧
    (checkSpellingAsync [JSValue.vstr [104, 101, 108, 108, 111]]).task =
      some { callback := JSValue.vundef, text := [104, 101, 108, 108, 111, 0] } ∧
    (getCorrectionsForMisspellingAsync [JSValue.vstr [104, 101, 108, 108, 111]]).thrown =
      none ∧
    (getCorrectionsForMisspellingAsync [JSValue.vstr [104, 101, 108, 108, 111]]).task =
      some { callback := JSValue.vundef, word := [104, 101, 108, 108, 111] } := by
  decide

/-- Claim C4 (counterexample): for the one-code-unit text "h" the worker-owned
vector handed to the engine is the two code units [104, 0] — the caller text
plus the NUL terminator slot — not the caller text of length one. -/
theorem checkSpellingAsync_text_has_extra_terminator :
    ((checkSpellingAsync [JSValue.vstr [104], JSValue.vfun 0]).task.map
      ScheduledCheckTask.text) = some [104, 0] ∧
    ((checkSpellingAsync [JSValue.vstr [104], JSValue.vfun 0]).task.map
      ScheduledCheckTask.text) ≠ some [104] := by
  decide

/-- Claim C4 (amended): for every non-empty text, checkSpellingAsync copies the
text at request time into a task-owned vector holding exactly the caller code
units followed by one trailing zero code unit (so its length is the caller
length plus one), and Execute hands exactly that vector, with its full size,
to the engine. -/
theorem checkSpellingAsync_copies_text_with_terminator (impl : Engine)
    (us : List Nat) (k : Nat) (h : us ≠ []) :
    (checkSpellingAsync [JSValue.vstr us, JSValue.vfun k]).thrown = none ∧
    (checkSpellingAsync [JSValue.vstr us, JSValue.vfun k]).task =
      some { callback := JSValue.vfun k, text := us ++ [0] } ∧
    (us ++ [0]).length = us.length + 1 ∧
    checkSpellingWorkerExecute impl (us ++ [0]) = impl.checkSpelling (us ++ [0]) := by
  have hlen : ¬ us.length = 0 := by simpa using h
  refine ⟨?_, ?_, by simp, rfl⟩ <;> simp [checkSpellingAsync, hlen]

/-- Closed instance of the C4 copy theorem at the text "h". -/
theorem checkSpellingAsync_copies_text_with_terminator_witness :
    (checkSpellingAsync [JSValue.vstr [104], JSValue.vfun 0]).thrown = none ∧
    (checkSpellingAsync [JSValue.vstr [104], JSValue.vfun 0]).task =
      some { callback := JSValue.vfun 0, text := [104] ++ [0] } ∧
    (([104] : List Nat) ++ [0]).length = [104].length + 1 ∧
    checkSpellingWorkerExecute trivialEngine ([104] ++ [0]) =
      trivialEngine.checkSpelling ([104] ++ [0]) :=
  checkSpellingAsync_copies_text_with_terminator trivialEngine [104] 0 (by decide)

/-- Claim C5 (counterexample): a non-empty checkSpellingAsync call against a
faulting engine does schedule a task, yet that scheduled task invokes the
completion sink zero times — not exactly once, as the claim states for every
scheduled task. -/
theorem scheduled_faulting_task_zero_invocations :
    (checkSpellingAsync [JSValue.vstr [104, 105], JSValue.vfun 0]).task.isSome = true ∧
    (checkAsyncSinkCalls faultingEngine
        (checkSpellingAsync [JSValue.vstr [104, 105], JSValue.vfun 0])).length = 0 ∧
    (checkAsyncSinkCalls faultingEngine
        (checkSpellingAsync [JSValue.vstr [104, 105], JSValue.vfun 0])).length ≠ 1 := by
  decide

/-- Claim C5 (amended): for every scheduled async task whose engine call
returns, the completion sink is invoked exactly once, with either a success
payload and a null error or a non-null error and no payload, never both and
never neither, for both worker kinds and for either branch of the modelled
completion dispatch; a scheduled task whose engine call faults invokes the
sink zero times. -/
theorem run_worker_exactly_once_exclusive (impl : Engine) (text word : List Nat)
    (rs : List MisspelledRange) (cs : List (List Nat)) (errorMessage : Option String)
    (h1 : impl.checkSpelling text = Except.ok rs)
    (h2 : impl.getCorrectionsForMisspelling word = Except.ok cs) :
    runCheckSpellingWorker impl text = Except.ok [checkSpellingHandleOK rs] ∧
    runGetCorrectionsWorker impl word = Except.ok [getCorrectionsHandleOK cs] ∧
    (dispatchOnce errorMessage (checkSpellingHandleOK rs) handleErrorCallback).length = 1 ∧
    (dispatchOnce errorMessage (getCorrectionsHandleOK cs) handleErrorCallback).length = 1 ∧
    (dispatchOnce errorMessage (checkSpellingHandleOK rs) handleErrorCallback).all
      exclusiveDelivery = true ∧
    (dispatchOnce errorMessage (getCorrectionsHandleOK cs) handleErrorCallback).all
      exclusiveDelivery = true := by
  unfold runCheckSpellingWorker runGetCorrectionsWorker
    checkSpellingWorkerExecute getCorrectionsWorkerExecute
  rw [h1, h2]
  refine ⟨rfl, rfl, ?_, ?_, ?_, ?_⟩ <;> cases errorMessage <;>
    simp [dispatchOnce, checkSpellingHandleOK, getCorrectionsHandleOK,
      handleErrorCallback, exclusiveDelivery]

/-- Closed instance of the C5 exactly-once theorem at the trivial engine. -/
theorem run_worker_exactly_once_exclusive_witness :
    runCheckSpellingWorker trivialEngine [104] = Except.ok [checkSpellingHandleOK []] ∧
    runGetCorrectionsWorker trivialEngine [104] = Except.ok [getCorrectionsHandleOK []] ∧
    (dispatchOnce none (checkSpellingHandleOK []) handleErrorCallback).length = 1 ∧
    (dispatchOnce none (getCorrectionsHandleOK []) handleErrorCallback).length = 1 ∧
    (dispatchOnce none (checkSpellingHandleOK []) handleErrorCallback).all
      exclusiveDelivery = true ∧
    (dispatchOnce none (getCorrectionsHandleOK []) handleErrorCallback).all
      exclusiveDelivery = true :=
  run_worker_exactly_once_exclusive trivialEngine [104] [104] [] [] none rfl rfl

/-- Claim C6 (counterexample): with an engine whose CheckSpelling faults, the
whole worker run ends in the propagated fault; the completion dispatch is
never reached, so the fault is not delivered through the error channel of the
completion sink. -/
theorem faulting_engine_never_reaches_error_channel :
    runCheckSpellingWorker faultingEngine [104, 105] =
      Except.error { msg := "engine fault" } ∧
    runCheckSpellingWorker faultingEngine [104, 105] ≠
      Except.ok [handleErrorCallback "engine fault"] := by
  refine ⟨rfl, fun hcontra => ?_⟩
  have h2 : (Except.error { msg := "engine fault" } :
      Except EngineFault (List CallbackCall)) =
      Except.ok [handleErrorCallback "engine fault"] := hcontra
  exact Except.noConfusion h2

/-- Claim C6 (amended): an engine fault during Execute is not captured by
either worker: Execute wraps the engine call in no handler and never records
an error message, so the fault propagates out of the worker run and the
completion sink's error channel is never engaged. -/
theorem engine_fault_propagates_uncaught (impl : Engine) (text word : List Nat)
    (f g : EngineFault) (h1 : impl.checkSpelling text = Except.error f)
    (h2 : impl.getCorrectionsForMisspelling word = Except.error g) :
    runCheckSpellingWorker impl text = Except.error f ∧
    runGetCorrectionsWorker impl word = Except.error g := by
  unfold runCheckSpellingWorker runGetCorrectionsWorker
    checkSpellingWorkerExecute getCorrectionsWorkerExecute
  rw [h1, h2]
  exact ⟨rfl, rfl⟩

/-- Closed instance of the C6 propagation theorem at the faulting engine. -/
theorem engine_fault_propagates_uncaught_witness :
    runCheckSpellingWorker faultingEngine [104] = Except.error { msg := "engine fault" } ∧
    runGetCorrectionsWorker faultingEngine [104] = Except.error { msg := "engine fault" } :=
  engine_fault_propagates_uncaught faultingEngine [104] [104]
    { msg := "engine fault" } { msg := "engine fault" } rfl rfl

/-- Claim C7: each HandleOKCallback delivers a null error and a payload equal,
element for element and in order, to the sequence the engine produced: the
range payload is identical whenever the range offsets fit in 32 bits (they are
read through uint32_t locals), and the corrections payload is identical
unconditionally. -/
theorem handleOK_preserves_engine_sequences (rs : List MisspelledRange)
    (cs : List (List Nat))
    (h : ∀ r ∈ rs, r.start < 4294967296 ∧ r.«end» < 4294967296) :
    (checkSpellingHandleOK rs).error = none ∧
    (checkSpellingHandleOK rs).payload = some (Payload.ranges rs) ∧
    (getCorrectionsHandleOK cs).error = none ∧
    (getCorrectionsHandleOK cs).payload = some (Payload.strings cs) := by
  refine ⟨rfl, ?_, rfl, rfl⟩
  simp only [checkSpellingHandleOK]
  rw [map_uint32_range_id rs h]

/-- Closed instance of the C7 preservation theorem at two ranges and one
correction. -/
theorem handleOK_preserves_engine_sequences_witness :
    (checkSpellingHandleOK
        [{ start := 0, «end» := 4 }, { start := 5, «end» := 9 }]).error = none ∧
    (checkSpellingHandleOK
        [{ start := 0, «end» := 4 }, { start := 5, «end» := 9 }]).payload =
      some (Payload.ranges [{ start := 0, «end» := 4 }, { start := 5, «end» := 9 }]) ∧
    (getCorrectionsHandleOK [[116, 101, 99, 104]]).error = none ∧
    (getCorrectionsHandleOK [[116, 101, 99, 104]]).payload =
      some (Payload.strings [[116, 101, 99, 104]]) :=
  handleOK_preserves_engine_sequences
    [{ start := 0, «end» := 4 }, { start := 5, «end» := 9 }]
    [[116, 101, 99, 104]] (by decide)

/-- Claim C8 (counterexample): after two setDictionary calls each supplying a
contents Buffer, the Controller pins only the second Buffer; the first, though
the Controller is still alive, is no longer kept alive by it. -/
theorem second_contents_call_unpins_first_buffer :
    dictDataAfter trivialEngine
        [ControllerCall.setDict [JSValue.vstr [101], JSValue.vbuf 0 [1]],
         ControllerCall.setDict [JSValue.vstr [102], JSValue.vbuf 1 [2]]] =
      some (JSValue.vbuf 1 [2]) ∧
    dictDataAfter trivialEngine
        [ControllerCall.setDict [JSValue.vstr [101], JSValue.vbuf 0 [1]],
         ControllerCall.setDict [JSValue.vstr [102], JSValue.vbuf 1 [2]]] ≠
      some (JSValue.vbuf 0 [1]) := by
  decide

/-- Claim C8 (amended): a Buffer supplied to setDictionary stays pinned in the
dictData slot through every subsequent call that does not itself supply a
contents Buffer — that is, until the Controller dies or a later
contents-supplying setDictionary call replaces it. -/
theorem setDictionary_pins_until_replaced (impl : Engine) (pre post : List ControllerCall)
    (lang : JSValue) (k : Nat) (bytes : List Nat)
    (h : ∀ c ∈ post, suppliesContents c = false) :
    dictDataAfter impl
        (pre ++ ControllerCall.setDict [lang, JSValue.vbuf k bytes] :: post) =
      some (JSValue.vbuf k bytes) := by
  unfold dictDataAfter
  rw [List.foldl_append, List.foldl_cons, controllerStep_setDict_contents]
  exact foldl_controllerStep_of_none impl post _ h

/-- Closed instance of the C8 pinning theorem: the pinned Buffer survives a
later async call and a later language-only setDictionary call. -/
theorem setDictionary_pins_until_replaced_witness :
    dictDataAfter trivialEngine
        ([] ++ ControllerCall.setDict [JSValue.vstr [101, 110], JSValue.vbuf 0 [1, 2]] ::
          [ControllerCall.checkAsync [JSValue.vstr [104], JSValue.vfun 0],
           ControllerCall.setDict [JSValue.vstr [100, 101]]]) =
      some (JSValue.vbuf 0 [1, 2]) :=
  setDictionary_pins_until_replaced trivialEngine []
    [ControllerCall.checkAsync [JSValue.vstr [104], JSValue.vfun 0],
     ControllerCall.setDict [JSValue.vstr [100, 101]]]
    (JSValue.vstr [101, 110]) 0 [1, 2] (by decide)

/-- Claim C9: for every word, including the empty one, a two-argument call to
getCorrectionsForMisspellingAsync throws nothing and always schedules a
background task carrying that word — there is no no-task fast path. -/
theorem getCorrections_always_schedules_task (w : List Nat) (k : Nat) :
    (getCorrectionsForMisspellingAsync [JSValue.vstr w, JSValue.vfun k]).thrown = none ∧
    (getCorrectionsForMisspellingAsync [JSValue.vstr w, JSValue.vfun k]).task =
      some { callback := JSValue.vfun k, word := w } := by
  exact ⟨rfl, rfl⟩

/-- Claim C10: the Controller holds at most one pinned contents Buffer at any
point: whatever the history, a contents-supplying setDictionary call leaves
exactly its own Buffer in the single dictData slot, and a Buffer from an
earlier contents-supplying call is no longer pinned afterwards. -/
theorem dictData_single_slot_overwrite (impl : Engine) (pre mid : List ControllerCall)
    (l1 l2 : JSValue) (k1 k2 : Nat) (b1 b2 : List Nat) :
    dictDataAfter impl
        (pre ++ ControllerCall.setDict [l1, JSValue.vbuf k1 b1] ::
          (mid ++ [ControllerCall.setDict [l2, JSValue.vbuf k2 b2]])) =
      some (JSValue.vbuf k2 b2) ∧
    (dictDataAfter impl
        (pre ++ ControllerCall.setDict [l1, JSValue.vbuf k1 b1] ::
          (mid ++ [ControllerCall.setDict [l2, JSValue.vbuf k2 b2]]))).toList.length ≤ 1 ∧
    (JSValue.vbuf k1 b1 ≠ JSValue.vbuf k2 b2 →
      dictDataAfter impl
          (pre ++ ControllerCall.setDict [l1, JSValue.vbuf k1 b1] ::
            (mid ++ [ControllerCall.setDict [l2, JSValue.vbuf k2 b2]])) ≠
        some (JSValue.vbuf k1 b1)) := by
  have hmain : dictDataAfter impl
      (pre ++ ControllerCall.setDict [l1, JSValue.vbuf k1 b1] ::
        (mid ++ [ControllerCall.setDict [l2, JSValue.vbuf k2 b2]])) =
      some (JSValue.vbuf k2 b2) := by
    have hassoc : pre ++ ControllerCall.setDict [l1, JSValue.vbuf k1 b1] ::
        (mid ++ [ControllerCall.setDict [l2, JSValue.vbuf k2 b2]]) =
        (pre ++ ControllerCall.setDict [l1, JSValue.vbuf k1 b1] :: mid) ++
          [ControllerCall.setDict [l2, JSValue.vbuf k2 b2]] := by
      simp
    rw [hassoc, dictDataAfter_append_contents]
  refine ⟨hmain, ?_, ?_⟩
  · rw [hmain]; simp
  · intro hne hcontra
    rw [hmain] at hcontra
    exact hne (Option.some.inj hcontra).symm

/-- Closed instance of the C10 single-slot theorem at two concrete Buffers. -/
theorem dictData_single_slot_overwrite_witness :
    dictDataAfter trivialEngine
        ([] ++ ControllerCall.setDict [JSValue.vstr [101], JSValue.vbuf 0 [1]] ::
          ([] ++ [ControllerCall.setDict [JSValue.vstr [102], JSValue.vbuf 1 [2]]])) =
      some (JSValue.vbuf 1 [2]) ∧
    (dictDataAfter trivialEngine
        ([] ++ ControllerCall.setDict [JSValue.vstr [101], JSValue.vbuf 0 [1]] ::
          ([] ++ [ControllerCall.setDict [JSValue.vstr [102],
            JSValue.vbuf 1 [2]]]))).toList.length ≤ 1 ∧
    dictDataAfter trivialEngine
        ([] ++ ControllerCall.setDict [JSValue.vstr [101], JSValue.vbuf 0 [1]] ::
          ([] ++ [ControllerCall.setDict [JSValue.vstr [102], JSValue.vbuf 1 [2]]])) ≠
      some (JSValue.vbuf 0 [1]) := by
  have h := dictData_single_slot_overwrite trivialEngine [] []
    (JSValue.vstr [101]) (JSValue.vstr [102]) 0 1 [1] [2]
  exact ⟨h.1, h.2.1, h.2.2 (by decide)⟩

end NodeSpellchecker
